import Mathlib

/-!
Shallow embedding of angr's FLIRT signature analysis
(`angr/analyses/flirt.py`): the string-heuristic signature selector,
the match orchestrator, and the match-reconciliation namer, together
with proofs about their behaviour.
-/

namespace Flirt

/-- A FLIRT signature record (`FlirtSignature`): architecture, OS name,
library name, path to the signature database, optional description. -/
structure FlirtSignature where
  arch : String
  os : String
  libraryName : String
  sig_path : String
  description : Option String
deriving Repr, DecidableEq

/-- A basic block: `(address, size)`. -/
structure Block where
  addr : Nat
  size : Nat
deriving Repr, DecidableEq

/-- A function record from the knowledge base, with the fields
`flirt.py` reads and writes: address, basic blocks, the
`is_simprocedure` / `is_plt` / `is_default_name` flags, the name, and
the `from_signature` provenance tag. -/
structure Function where
  addr : Nat
  blocks : List Block
  is_simprocedure : Bool
  is_plt : Bool
  is_default_name : Bool
  name : String
  from_signature : Option String
deriving Repr, DecidableEq

/-- `func.block_addrs_set` — the set of basic-block addresses. -/
def Function.block_addrs_set (f : Function) : List Nat :=
  f.blocks.map Block.addr

/-- `func.get_block(addr).size` — the size of the block at `addr`
(0 if absent; in the source a missing block would be an error, but the
orchestrator only queries addresses drawn from `block_addrs_set`). -/
def Function.get_block_size (f : Function) (a : Nat) : Nat :=
  match f.blocks.find? (fun b => b.addr == a) with
  | some b => b.size
  | none => 0

/-- `s.encode("ascii")` — the byte encoding of an ASCII token. -/
def asciiEncode (s : String) : List Nat :=
  s.data.map Char.toNat

/-- Python's `token in region` on byte strings: contiguous-substring
containment (true for the empty token). -/
def bytesContain (token : List Nat) : List Nat → Bool
  | [] => token.isEmpty
  | b :: rest => token.isPrefixOf (b :: rest) || bytesContain token rest

/-- Python's `str.lower()` (per-character lower-casing; the tokens and
architecture names involved are ASCII). -/
def pyLower (s : String) : String :=
  ⟨s.data.map Char.toLower⟩

/-- `library_hits[lib] += 1` on a `defaultdict(int)`: bump the entry for
`lib`, appending a fresh entry (count 1) in insertion order when absent. -/
def bumpHits (hits : List (String × Nat)) (lib : String) : List (String × Nat) :=
  match hits with
  | [] => [(lib, 1)]
  | (l, n) :: rest =>
    if l = lib then (l, n + 1) :: rest else (l, n) :: bumpHits rest lib

/-- The hit-counting loops of `_find_hits_by_strings`: for every
`(token, libraries)` entry of `STRING_TO_LIBRARIES`, for every region,
if the ASCII-encoded token is byte-contained in the region, credit every
library of the entry one hit. -/
def libraryHits (string_to_libraries : List (String × List String))
    (regions : List (List Nat)) : List (String × Nat) :=
  string_to_libraries.foldl
    (fun hits p =>
      regions.foldl
        (fun hits region =>
          if bytesContain (asciiEncode p.1) region then
            p.2.foldl bumpHits hits
          else hits)
        hits)
    []

/-- `sorted(library_hits.keys(), key=lambda lib: library_hits[lib],
reverse=True)`: a stable descending sort by count (Python's `sorted`
with `reverse=True` keeps ties in original order); the entries carry
their counts along instead of re-querying the dict. -/
def sortByCountDesc (l : List (String × Nat)) : List (String × Nat) :=
  List.insertionSort (fun a b => a.2 ≥ b.2) l

/-- The final yield loops of `_find_hits_by_strings`: for each ranked
library, the signatures of `LIBRARY_TO_SIGNATURES[lib]` whose `arch`
equals the lower-cased target architecture, in catalog order. -/
def find_hits_by_strings (string_to_libraries : List (String × List String))
    (library_to_signatures : String → List FlirtSignature)
    (arch_name : String) (regions : List (List Nat)) : List FlirtSignature :=
  let arch_lowercase := pyLower arch_name
  (sortByCountDesc (libraryHits string_to_libraries regions)).flatMap
    (fun p => (library_to_signatures p.1).filter (fun sig => sig.arch == arch_lowercase))

/-- A raw match hit from the external matcher (`nampa.FlirtFunction`):
byte offset within the scanned buffer and candidate name
(`"?"` is the anonymous sentinel). -/
structure FlirtFunction where
  offset : Nat
  name : String
deriving Repr, DecidableEq

/-- Python exceptions reachable from this pipeline. -/
inductive PyErr
  | valueError
  | attributeError
  | runtimeError
  | parseError
deriving Repr, DecidableEq

/-- Observable resource / memory events of a run: signature-file handle
acquisition and release, and byte-load requests. -/
inductive Event
  | opened (path : String)
  | closed (path : String)
  | load (addr : Nat) (length : Int)
deriving Repr, DecidableEq

/-- The external collaborators of the pipeline: the ARM-family flag,
the loader's `memory.load`, whether `nampa.parse_flirt_file` succeeds on
a given signature file, and the hits `nampa.match_function` reports (in
callback order) for a parsed database, a byte buffer, and a base address. -/
structure MatchCtx where
  is_arm : Bool
  load : Nat → Int → List Nat
  parse_ok : String → Bool
  matcher : String → List Nat → Nat → List FlirtFunction

/-- `kb.functions.get_by_addr(a)` — the function at address `a`,
raising `KeyError` (here: `none`) when absent. -/
def get_by_addr (kb : List Function) (a : Nat) : Option Function :=
  kb.find? (fun f => f.addr == a)

/-- In-place mutation of the function object at address `a` (the
knowledge base is keyed by address, so the first entry is the object). -/
def set_func : List Function → Nat → (Function → Function) → List Function
  | [], _, _ => []
  | f :: rest, a, g =>
    if f.addr = a then g f :: rest else f :: set_func rest a g

/-- The mutation block of `_on_func_matched`: set the name (the `"?"`
sentinel yields `unknown_function_<hex addr>`), clear the default-name
flag, and set provenance to `"flirt"`. -/
def rename (ff : FlirtFunction) (f : Function) : Function :=
  { f with
    name := if ff.name ≠ "?" then ff.name
            else "unknown_function_" ++ (Nat.toDigits 16 f.addr).asString,
    is_default_name := false,
    from_signature := some "flirt" }

/-- `_on_func_matched`: resolve the hit at `base_addr + offset` — the
scanned function itself for a zero-offset hit, otherwise a knowledge-base
lookup with an ARM Thumb retry at `+1` — and apply the naming policy when
the resolved function still carries a default name. -/
def on_func_matched (is_arm : Bool) (kb : List Function) (scan_func_addr : Nat)
    (base_addr : Nat) (ff : FlirtFunction) : List Function :=
  let func_addr := base_addr + ff.offset
  let target : Option Function :=
    if func_addr ≠ base_addr then
      match get_by_addr kb func_addr with
      | some f => some f
      | none => if is_arm then get_by_addr kb (func_addr + 1) else none
    else get_by_addr kb scan_func_addr
  match target with
  | none => kb
  | some f => if f.is_default_name then set_func kb f.addr (rename ff) else kb

/-- Python's `max` over a collection of naturals (`ValueError`, here
`none`, on an empty collection). -/
def maxList : List Nat → Option Nat
  | [] => none
  | a :: as => some (as.foldl max a)

/-- The per-function body of `_match_all_against_one_signature`:
eligibility triage, scan-window computation with the ARM low-bit mask,
the byte-load request, and the matcher drive with `_on_func_matched`
as callback. -/
def process_function (ctx : MatchCtx) (sig_path : String) (kb : List Function)
    (fa : Nat) : List Function × List Event × Option PyErr :=
  match get_by_addr kb fa with
  | none => (kb, [], none)
  | some func =>
    if func.is_simprocedure || func.is_plt then (kb, [], none)
    else if !func.is_default_name then (kb, [], none)
    else
      let start := func.addr
      let start := if ctx.is_arm then start &&& 0xfffffffe else start
      match maxList func.block_addrs_set with
      | none => (kb, [], some .valueError)
      | some max_block_addr =>
        let e := max_block_addr + func.get_block_size max_block_addr
        let e := if ctx.is_arm then e &&& 0xfffffffe else e
        let length : Int := (e : Int) - (start : Int) + 0x100
        let func_bytes := ctx.load start length
        let hits := ctx.matcher sig_path func_bytes start
        (hits.foldl (fun kb ff => on_func_matched ctx.is_arm kb fa start ff) kb,
         [Event.load start length], none)

/-- The function loop of `_match_all_against_one_signature` over the
snapshot of knowledge-base addresses; an exception aborts the loop. -/
def loop_functions (ctx : MatchCtx) (sig_path : String) :
    List Nat → List Function → List Function × List Event × Option PyErr
  | [], kb => (kb, [], none)
  | a :: rest, kb =>
    match process_function ctx sig_path kb a with
    | (kb1, evs, some e) => (kb1, evs, some e)
    | (kb1, evs, none) =>
      match loop_functions ctx sig_path rest kb1 with
      | (kb2, evs2, err) => (kb2, evs ++ evs2, err)

/-- `_match_all_against_one_signature`: `with open(sig.sig_path)` —
the handle is released on every exit path — then parse (a parse failure
raises) and run the function loop. -/
def process_one_signature (ctx : MatchCtx) (kb : List Function)
    (sig : FlirtSignature) : List Function × List Event × Option PyErr :=
  if ctx.parse_ok sig.sig_path then
    match loop_functions ctx sig.sig_path (kb.map Function.addr) kb with
    | (kb1, evs, err) =>
      (kb1, Event.opened sig.sig_path :: (evs ++ [Event.closed sig.sig_path]), err)
  else
    (kb, [Event.opened sig.sig_path, Event.closed sig.sig_path], some .parseError)

/-- The signature loop at the end of `__init__`: an exception from one
signature propagates and aborts the loop. -/
def run_signatures (ctx : MatchCtx) : List FlirtSignature → List Function →
    List Function × List Event × Option PyErr
  | [], kb => (kb, [], none)
  | sig :: rest, kb =>
    match process_one_signature ctx kb sig with
    | (kb1, evs, some e) => (kb1, evs, some e)
    | (kb1, evs, none) =>
      match run_signatures ctx rest kb1 with
      | (kb2, evs2, err) => (kb2, evs ++ evs2, err)

/-- A loaded-object segment (`vaddr`, `memsize`, `filesize`). -/
structure Segment where
  vaddr : Nat
  memsize : Nat
  filesize : Nat
deriving Repr, DecidableEq

/-- Python truthiness of the `sig` argument: an object is truthy, a
string is truthy iff non-empty. -/
def pyTruthy : FlirtSignature ⊕ String → Bool
  | .inl _ => true
  | .inr s => !s.isEmpty

/-- The heuristic branch of `__init__`: fail with `RuntimeError` when no
FLIRT signatures are loaded, otherwise build the memory regions from the
non-empty file-backed segments and select signatures by string hits. -/
def heuristic_signatures (ctx : MatchCtx) (arch_name : String)
    (string_to_libraries : List (String × List String))
    (library_to_signatures : String → List FlirtSignature)
    (flirt_signatures_by_arch_nonempty : Bool)
    (segments : List Segment) : Except PyErr (List FlirtSignature) :=
  if !flirt_signatures_by_arch_nonempty then .error .runtimeError
  else
    let mem_regions :=
      (segments.filter (fun s => decide (0 < s.filesize) && decide (0 < s.memsize))).map
        (fun s => ctx.load s.vaddr (s.memsize : Int))
    .ok (find_hits_by_strings string_to_libraries library_to_signatures
          arch_name mem_regions)

/-- `FlirtAnalysis.__init__`: determine the signature list — a
string path is wrapped into a synthetic `"Temporary"` signature, a
non-string truthy `sig` leaves `self.signatures` unassigned so the final
loop raises `AttributeError`, and a falsy `sig` takes the heuristic
branch — then drive every selected signature. -/
def flirt_init (ctx : MatchCtx) (arch_name os_name : String)
    (string_to_libraries : List (String × List String))
    (library_to_signatures : String → List FlirtSignature)
    (flirt_signatures_by_arch_nonempty : Bool)
    (segments : List Segment)
    (sig : Option (FlirtSignature ⊕ String)) (kb : List Function) :
    List Function × List Event × Option PyErr :=
  let heuristic := heuristic_signatures ctx arch_name string_to_libraries
      library_to_signatures flirt_signatures_by_arch_nonempty segments
  let signatures : Except PyErr (List FlirtSignature) :=
    match sig with
    | some s =>
      if pyTruthy s then
        match s with
        | .inr path =>
          .ok [⟨pyLower arch_name, pyLower os_name, "Temporary", path, none⟩]
        | .inl _ => .error .attributeError
      else heuristic
    | none => heuristic
  match signatures with
  | .error e => (kb, [], some e)
  | .ok sigs => run_signatures ctx sigs kb

/-! ### Specification-side definitions (for comparison with the code) -/

/-- Hit count as the spec describes it: one hit per `(token, buffer)`
pair whose ASCII-encoded token is byte-contained in the buffer, credited
to every library the token maps to. -/
def hitCountSpec (string_to_libraries : List (String × List String))
    (regions : List (List Nat)) (lib : String) : Nat :=
  (string_to_libraries.map
    (fun p => (regions.countP (fun r => bytesContain (asciiEncode p.1) r))
                * p.2.count lib)).sum

/-- First-match count lookup in a `(library, count)` association list
(the `defaultdict(int)` read view). -/
def getCount : List (String × Nat) → String → Nat
  | [], _ => 0
  | (l, n) :: rest, x => if l = x then n else getCount rest x

/-- Modelled from the spec: clearing exactly the low address bit (all
other bits unchanged), as the Thumb-mode normalization is described. -/
def specClearLowBit (a : Nat) : Nat := 2 * (a / 2)

/-- Modelled from the spec: case-insensitive equality of architecture
names ("architecture equals the target architecture (case-insensitive)"). -/
def archMatchesCaseInsensitive (a b : String) : Bool :=
  pyLower a == pyLower b

/-! ### Concrete fixtures used by witnesses and counterexamples -/

/-- A zlib x86 signature (first in catalog order). -/
def zlibSigX1 : FlirtSignature := ⟨"x86", "linux", "zlib", "zlib1.sig", none⟩

/-- A zlib signature for a different architecture. -/
def zlibSigMips : FlirtSignature := ⟨"mips", "linux", "zlib", "zlibm.sig", none⟩

/-- A second zlib x86 signature (later in catalog order). -/
def zlibSigX2 : FlirtSignature := ⟨"x86", "linux", "zlib", "zlib2.sig", none⟩

/-- An x86 signature of an unrelated library whose token never hits. -/
def fooSigX : FlirtSignature := ⟨"x86", "linux", "libfoo", "foo.sig", none⟩

/-- A zlib signature whose stored architecture differs from the target
only in letter case. -/
def caseSig : FlirtSignature := ⟨"X86", "linux", "zlib", "zcase.sig", none⟩

/-- Catalog `LIBRARY_TO_SIGNATURES` for the end-to-end selector scenario. -/
def l2sExample : String → List FlirtSignature :=
  fun lib => if lib = "zlib" then [zlibSigX1, zlibSigMips, zlibSigX2]
             else if lib = "libfoo" then [fooSigX] else []

/-- Catalog `STRING_TO_LIBRARIES` for the end-to-end selector scenario:
an absent token for libfoo and the zlib token. -/
def s2lExample : List (String × List String) :=
  [("libfoo token", ["libfoo"]), ("inflate 1.2.11", ["zlib"])]

/-- One loaded segment buffer containing the ASCII token
`"inflate 1.2.11"`. -/
def bufExample : List Nat := asciiEncode "xx inflate 1.2.11 yy"

/-- Catalog mapping zlib to the case-mismatched signature only. -/
def l2sCase : String → List FlirtSignature :=
  fun lib => if lib = "zlib" then [caseSig] else []

/-- An eligible function at `0x1000` whose scan window covers `0x1002`. -/
def funcAt1000 : Function :=
  ⟨0x1000, [⟨0x1000, 4⟩], false, false, true, "sub_1000", none⟩

/-- A PLT stub at `0x1002` that still carries its default name. -/
def pltAt1002 : Function :=
  ⟨0x1002, [⟨0x1002, 4⟩], false, true, true, "plt_stub", none⟩

/-- A context whose matcher reports one hit at offset 2 (name `"evil"`)
when scanning from base `0x1000`. -/
def ctxPltHit : MatchCtx :=
  ⟨false, fun _ _ => [], fun _ => true,
   fun _ _ base => if base = 0x1000 then [⟨2, "evil"⟩] else []⟩

/-- A signature record for driving the concrete runs. -/
def sigP : FlirtSignature := ⟨"x86", "linux", "somelib", "p.sig", none⟩

/-- An eligible function at `0x2000`. -/
def funcAt2000 : Function :=
  ⟨0x2000, [⟨0x2000, 4⟩], false, false, true, "sub_2000", none⟩

/-- A context where the database `"bad.sig"` fails to parse and every
scan produces a zero-offset `"memcpy"` hit. -/
def ctxBadParse : MatchCtx :=
  ⟨false, fun _ _ => [], fun p => p ≠ "bad.sig", fun _ _ _ => [⟨0, "memcpy"⟩]⟩

/-- The signature whose database fails to parse. -/
def sigBad : FlirtSignature := ⟨"x86", "linux", "somelib", "bad.sig", none⟩

/-- A signature whose database parses fine. -/
def sigGood : FlirtSignature := ⟨"x86", "linux", "somelib", "good.sig", none⟩

/-- An eligible function at address `2 ^ 32` (low bit already clear). -/
def funcAtHigh : Function :=
  ⟨0x100000000, [⟨0x100000000, 4⟩], false, false, true, "s_high", none⟩

/-- An eligible Thumb function at the odd address `0x1001`. -/
def funcThumb : Function :=
  ⟨0x1001, [⟨0x1001, 6⟩], false, false, true, "sub_1001", none⟩

/-- An ARM-family context with a silent matcher. -/
def ctxArm : MatchCtx := ⟨true, fun _ _ => [], fun _ => true, fun _ _ _ => []⟩

/-- An eligible function with an empty basic-block set. -/
def funcNoBlocks : Function :=
  ⟨0x3000, [], false, false, true, "sub_3000", none⟩

/-- The scan-window scenario: start `0x1000`, last block
`(0x1020, size 0x10)`. -/
def funcC2 : Function :=
  ⟨0x1000, [⟨0x1000, 0x20⟩, ⟨0x1020, 0x10⟩], false, false, true, "sub_1000w", none⟩

/-- A function that already carries a non-placeholder name. -/
def namedFunc : Function :=
  ⟨0x4000, [⟨0x4000, 4⟩], false, false, false, "strcpy", some "user"⟩

/-- The PLT stub after the namer has renamed it: name `"evil"`,
default-name flag cleared, provenance `"flirt"`. -/
def pltRenamed : Function :=
  ⟨0x1002, [⟨0x1002, 4⟩], false, true, false, "evil", some "flirt"⟩

/-! ### Helper lemmas on the knowledge base -/

theorem get_by_addr_addr {kb : List Function} {a : Nat} {f : Function}
    (h : get_by_addr kb a = some f) : f.addr = a := by
  unfold get_by_addr at h
  have := List.find?_some h
  simpa using this

theorem get_by_addr_cons {f : Function} {rest : List Function} {a : Nat} :
    get_by_addr (f :: rest) a = if f.addr = a then some f else get_by_addr rest a := by
  by_cases h : f.addr = a
  · simp [get_by_addr, List.find?_cons, h]
  · simp [get_by_addr, List.find?_cons, h]

theorem get_by_addr_set_func_ne {kb : List Function} {a b : Nat}
    {g : Function → Function} (hg : ∀ f, (g f).addr = f.addr) (hne : a ≠ b) :
    get_by_addr (set_func kb b g) a = get_by_addr kb a := by
  induction kb with
  | nil => rfl
  | cons f rest ih =>
    unfold set_func
    by_cases hb : f.addr = b
    · rw [if_pos hb, get_by_addr_cons, get_by_addr_cons, hg f, hb,
        if_neg (fun h => hne h.symm), if_neg (fun h => hne h.symm)]
    · rw [if_neg hb, get_by_addr_cons, get_by_addr_cons, ih]

theorem get_by_addr_set_func_eq {kb : List Function} {a : Nat} {f : Function}
    {g : Function → Function} (hg : ∀ f, (g f).addr = f.addr)
    (h : get_by_addr kb a = some f) :
    get_by_addr (set_func kb a g) a = some (g f) := by
  induction kb with
  | nil => simp [get_by_addr, List.find?] at h
  | cons f0 rest ih =>
    rw [get_by_addr_cons] at h
    unfold set_func
    by_cases hb : f0.addr = a
    · rw [if_pos hb] at h ⊢
      have hf : f = f0 := by injection h with h; exact h.symm
      subst hf
      rw [get_by_addr_cons, if_pos (by rw [hg f, hb])]
    · rw [if_neg hb] at h ⊢
      rw [get_by_addr_cons, if_neg hb]
      exact ih h

theorem rename_addr (ff : FlirtFunction) (f : Function) :
    (rename ff f).addr = f.addr := rfl

/-- Every call of the namer either leaves the knowledge base unchanged
or renames one function that was found in it with its default-name flag
still set. -/
theorem on_func_matched_cases (is_arm : Bool) (kb : List Function)
    (sfa base : Nat) (ff : FlirtFunction) :
    on_func_matched is_arm kb sfa base ff = kb ∨
    ∃ z f', get_by_addr kb z = some f' ∧ f'.is_default_name = true ∧
      on_func_matched is_arm kb sfa base ff = set_func kb f'.addr (rename ff) := by
  simp only [on_func_matched]
  split
  · exact Or.inl rfl
  · rename_i f' heq
    by_cases hd : f'.is_default_name
    · refine Or.inr ?_
      split at heq
      · split at heq
        · rename_i hz
          exact ⟨_, f', by rw [hz]; exact heq, hd, by rw [hd]; simp⟩
        · split at heq
          · exact ⟨_, f', heq, hd, by rw [hd]; simp⟩
          · exact absurd heq (by simp)
      · exact ⟨_, f', heq, hd, by rw [hd]; simp⟩
    · exact Or.inl (if_neg hd)

/-- A function that is found at its address and already carries a
non-default name is left untouched by one namer call. -/
theorem on_func_matched_preserves {is_arm : Bool} {kb : List Function}
    {sfa base : Nat} {ff : FlirtFunction} {a : Nat} {f : Function}
    (hget : get_by_addr kb a = some f) (hdef : f.is_default_name = false) :
    get_by_addr (on_func_matched is_arm kb sfa base ff) a = some f := by
  rcases on_func_matched_cases is_arm kb sfa base ff with h | ⟨z, f', hz, hd', h⟩
  · rw [h]; exact hget
  · rw [h]
    by_cases hfa : f'.addr = a
    · exfalso
      have hza : z = a := by rw [← get_by_addr_addr hz, hfa]
      rw [hza, hget] at hz
      injection hz with hz
      rw [← hz, hdef] at hd'
      exact Bool.false_ne_true hd'
    · rw [get_by_addr_set_func_ne (rename_addr ff) (fun h => hfa h.symm)]
      exact hget

theorem fold_hits_preserves {is_arm : Bool} {sfa base : Nat} {a : Nat} {f : Function} :
    ∀ (hits : List FlirtFunction) (kb : List Function),
    get_by_addr kb a = some f → f.is_default_name = false →
    get_by_addr (hits.foldl (fun kb ff => on_func_matched is_arm kb sfa base ff) kb) a
      = some f := by
  intro hits
  induction hits with
  | nil => intro kb h _; exact h
  | cons ff rest ih =>
    intro kb h hdef
    exact ih _ (on_func_matched_preserves h hdef) hdef

/-- The state after one per-function scan is either unchanged or the
result of folding the namer over the matcher's hits. -/
theorem process_function_kb_cases (ctx : MatchCtx) (p : String)
    (kb : List Function) (fa : Nat) :
    (process_function ctx p kb fa).1 = kb ∨
    ∃ (base : Nat) (hits : List FlirtFunction), (process_function ctx p kb fa).1 =
      hits.foldl (fun kb ff => on_func_matched ctx.is_arm kb fa base ff) kb := by
  unfold process_function
  split
  · exact Or.inl rfl
  · rename_i func heq
    split
    · exact Or.inl rfl
    · split
      · exact Or.inl rfl
      · rcases hmax : maxList func.block_addrs_set with _ | mba
        · simp only [hmax]
          exact Or.inl (by trivial)
        · simp only [hmax]
          exact Or.inr ⟨_, _, by trivial⟩

theorem process_function_preserves {ctx : MatchCtx} {p : String}
    {kb : List Function} {fa a : Nat} {f : Function}
    (hget : get_by_addr kb a = some f) (hdef : f.is_default_name = false) :
    get_by_addr (process_function ctx p kb fa).1 a = some f := by
  rcases process_function_kb_cases ctx p kb fa with h | ⟨base, hits, h⟩
  · rw [h]; exact hget
  · rw [h]; exact fold_hits_preserves _ _ hget hdef

theorem loop_functions_preserves {ctx : MatchCtx} {p : String} {a : Nat} {f : Function} :
    ∀ (addrs : List Nat) (kb : List Function),
    get_by_addr kb a = some f → f.is_default_name = false →
    get_by_addr (loop_functions ctx p addrs kb).1 a = some f := by
  intro addrs
  induction addrs with
  | nil => intro kb h _; exact h
  | cons fa rest ih =>
    intro kb h hdef
    unfold loop_functions
    split
    · rename_i kb1 evs e heq
      have := @process_function_preserves ctx p kb fa a f h hdef
      rw [heq] at this
      exact this
    · rename_i kb1 evs heq
      have h1 := @process_function_preserves ctx p kb fa a f h hdef
      rw [heq] at h1
      split
      rename_i kb2 evs2 err heq2
      have h2 := ih kb1 h1 hdef
      rw [heq2] at h2
      exact h2

theorem process_one_signature_preserves {ctx : MatchCtx} {kb : List Function}
    {sig : FlirtSignature} {a : Nat} {f : Function}
    (hget : get_by_addr kb a = some f) (hdef : f.is_default_name = false) :
    get_by_addr (process_one_signature ctx kb sig).1 a = some f := by
  unfold process_one_signature
  split
  · split
    rename_i kb1 evs err heq
    have h1 := @loop_functions_preserves ctx sig.sig_path a f
      (kb.map Function.addr) kb hget hdef
    rw [heq] at h1
    exact h1
  · exact hget

theorem run_signatures_preserves {ctx : MatchCtx} {a : Nat} {f : Function} :
    ∀ (sigs : List FlirtSignature) (kb : List Function),
    get_by_addr kb a = some f → f.is_default_name = false →
    get_by_addr (run_signatures ctx sigs kb).1 a = some f := by
  intro sigs
  induction sigs with
  | nil => intro kb h _; exact h
  | cons sig rest ih =>
    intro kb h hdef
    unfold run_signatures
    split
    · rename_i kb1 evs e heq
      have h1 := @process_one_signature_preserves ctx kb sig a f h hdef
      rw [heq] at h1
      exact h1
    · rename_i kb1 evs heq
      have h1 := @process_one_signature_preserves ctx kb sig a f h hdef
      rw [heq] at h1
      split
      rename_i kb2 evs2 err heq2
      have h2 := ih kb1 h1 hdef
      rw [heq2] at h2
      exact h2

theorem init_dispatch_preserves {ctx : MatchCtx} {kb : List Function}
    {a : Nat} {f : Function}
    (hget : get_by_addr kb a = some f) (hdef : f.is_default_name = false)
    (esigs : Except PyErr (List FlirtSignature)) :
    get_by_addr (match esigs with
      | .error e => (kb, ([] : List Event), some e)
      | .ok sigs => run_signatures ctx sigs kb).1 a = some f := by
  cases esigs
  · exact hget
  · exact run_signatures_preserves _ _ hget hdef

theorem flirt_init_preserves {ctx : MatchCtx} {arch_name os_name : String}
    {s2l : List (String × List String)} {l2s : String → List FlirtSignature}
    {nonempty : Bool} {segs : List Segment} {sig : Option (FlirtSignature ⊕ String)}
    {kb : List Function} {a : Nat} {f : Function}
    (hget : get_by_addr kb a = some f) (hdef : f.is_default_name = false) :
    get_by_addr (flirt_init ctx arch_name os_name s2l l2s nonempty segs sig kb).1 a
      = some f := by
  unfold flirt_init
  exact init_dispatch_preserves hget hdef _

/-! ### The claims -/

/-- Claim C4: a function that carries a non-placeholder name before a
pipeline run is unchanged after the run (its whole record, name and
provenance included, is preserved), and likewise no single namer call
ever touches it. -/
theorem C4_no_overwrite (ctx : MatchCtx) (arch_name os_name : String)
    (s2l : List (String × List String)) (l2s : String → List FlirtSignature)
    (nonempty : Bool) (segs : List Segment) (sig : Option (FlirtSignature ⊕ String))
    (kb : List Function) (a : Nat) (f : Function)
    (hget : get_by_addr kb a = some f) (hdef : f.is_default_name = false) :
    get_by_addr (flirt_init ctx arch_name os_name s2l l2s nonempty segs sig kb).1 a
      = some f
    ∧ ∀ (is_arm : Bool) (sfa base : Nat) (ff : FlirtFunction),
        get_by_addr (on_func_matched is_arm kb sfa base ff) a = some f :=
  ⟨flirt_init_preserves hget hdef,
   fun _ _ _ _ => on_func_matched_preserves hget hdef⟩

/-- Witness for C4 at a concrete input: a run over a knowledge base
containing the already-named `strcpy` at `0x4000` leaves it untouched. -/
theorem C4_no_overwrite_witness :
    get_by_addr (flirt_init ctxPltHit "x86" "linux" [] (fun _ => []) true []
      (some (Sum.inr "p.sig")) [funcAt1000, namedFunc]).1 0x4000 = some namedFunc :=
  (C4_no_overwrite ctxPltHit "x86" "linux" [] (fun _ => []) true []
    (some (Sum.inr "p.sig")) [funcAt1000, namedFunc] 0x4000 namedFunc
    (by decide) (by decide)).1

/-- Claim C2: for an eligible function on a non-ARM architecture the
scan window starts at the function address, ends at the last block's
address plus its size, and the byte-load request has length
`end - start + 0x100`. -/
theorem C2_scan_window (ctx : MatchCtx) (sig_path : String) (kb : List Function)
    (f : Function) (m : Nat)
    (harm : ctx.is_arm = false)
    (hget : get_by_addr kb f.addr = some f)
    (hsp : f.is_simprocedure = false) (hplt : f.is_plt = false)
    (hdef : f.is_default_name = true)
    (hmax : maxList f.block_addrs_set = some m) :
    (process_function ctx sig_path kb f.addr).2.1 =
      [Event.load f.addr
        ((((m + f.get_block_size m : Nat) : Int)) - ((f.addr : Nat) : Int) + 0x100)] := by
  unfold process_function
  simp only [hget, hsp, hplt, hdef, hmax, harm]
  simp

/-- Witness for C2: start `0x1000`, last block `(0x1020, 0x10)` gives a
load request of `0x130` bytes at `0x1000`. -/
theorem C2_scan_window_witness :
    (process_function ctxPltHit "p.sig" [funcC2] 0x1000).2.1 =
      [Event.load 0x1000 0x130] := by
  have h := C2_scan_window ctxPltHit "p.sig" [funcC2] funcC2 0x1020
    rfl (by decide) rfl rfl rfl (by decide)
  simpa using h

/-- Claim C9: constructing the analysis with a pre-built signature
object (not a file-path string) leaves the signature list unassigned, so
the run raises `AttributeError` before any matching: no handle is
opened, no bytes are loaded, and the knowledge base is unchanged. -/
theorem C9_signature_object_attribute_error (ctx : MatchCtx)
    (arch_name os_name : String) (s2l : List (String × List String))
    (l2s : String → List FlirtSignature) (nonempty : Bool)
    (segs : List Segment) (fs : FlirtSignature) (kb : List Function) :
    flirt_init ctx arch_name os_name s2l l2s nonempty segs (some (Sum.inl fs)) kb =
      (kb, [], some PyErr.attributeError) := rfl

/-- Claim C10: an eligible function with an empty basic-block set makes
`max` raise `ValueError`, and the loop aborts instead of skipping the
function — later functions are not scanned. -/
theorem C10_empty_blocks_aborts (ctx : MatchCtx) (sig_path : String)
    (kb : List Function) (f : Function) (rest : List Nat)
    (hget : get_by_addr kb f.addr = some f)
    (hsp : f.is_simprocedure = false) (hplt : f.is_plt = false)
    (hdef : f.is_default_name = true) (hblocks : f.blocks = []) :
    process_function ctx sig_path kb f.addr = (kb, [], some PyErr.valueError)
    ∧ loop_functions ctx sig_path (f.addr :: rest) kb =
        (kb, [], some PyErr.valueError) := by
  have h1 : process_function ctx sig_path kb f.addr = (kb, [], some PyErr.valueError) := by
    unfold process_function
    simp [hget, hsp, hplt, hdef, Function.block_addrs_set, hblocks, maxList]
  refine ⟨h1, ?_⟩
  unfold loop_functions
  rw [h1]

/-- Witness for C10: with `funcNoBlocks` first, the run errors out and
the eligible `funcAt1000` behind it is never scanned. -/
theorem C10_empty_blocks_aborts_witness :
    loop_functions ctxPltHit "p.sig" [0x3000, 0x1000] [funcNoBlocks, funcAt1000] =
      ([funcNoBlocks, funcAt1000], [], some PyErr.valueError) := by
  have h := C10_empty_blocks_aborts ctxPltHit "p.sig" [funcNoBlocks, funcAt1000]
    funcNoBlocks [0x1000] (by decide) rfl rfl rfl rfl
  simpa using h.2

/-- Claim C6 (amended): when one signature's database fails to parse,
the scoped `with open` still releases the file handle, but the exception
propagates: the run aborts and the remaining signatures are not
processed. -/
theorem C6_parse_failure_aborts (ctx : MatchCtx) (kb : List Function)
    (sig : FlirtSignature) (rest : List FlirtSignature)
    (h : ctx.parse_ok sig.sig_path = false) :
    run_signatures ctx (sig :: rest) kb =
      (kb, [Event.opened sig.sig_path, Event.closed sig.sig_path],
       some PyErr.parseError) := by
  unfold run_signatures process_one_signature
  simp [h]

/-- Witness for C6's amended statement at the concrete bad-parse run. -/
theorem C6_parse_failure_aborts_witness :
    run_signatures ctxBadParse [sigBad, sigGood] [funcAt2000] =
      ([funcAt2000], [Event.opened "bad.sig", Event.closed "bad.sig"],
       some PyErr.parseError) := by
  have h := C6_parse_failure_aborts ctxBadParse [funcAt2000] sigBad [sigGood] (by decide)
  simpa using h

/-- Counterexample to C6 as stated: after `bad.sig` fails to parse,
`good.sig` is NOT processed (the knowledge base comes back unchanged and
no event for `good.sig` is recorded), although running `good.sig` alone
would have renamed the function. -/
theorem C6_counterexample :
    run_signatures ctxBadParse [sigBad, sigGood] [funcAt2000] =
      ([funcAt2000], [Event.opened "bad.sig", Event.closed "bad.sig"],
       some PyErr.parseError)
    ∧ (run_signatures ctxBadParse [sigGood] [funcAt2000]).1 ≠ [funcAt2000] := by
  decide

/-- Claim C3 (amended): the eligibility filter never selects a
simulated procedure or a PLT stub for scanning — processing such a
function is a complete no-op. (The namer, however, does not re-check
those flags for functions resolved by address, see the counterexample.) -/
theorem C3_eligibility_skip (ctx : MatchCtx) (sig_path : String)
    (kb : List Function) (fa : Nat) (f : Function)
    (hget : get_by_addr kb fa = some f)
    (h : f.is_simprocedure = true ∨ f.is_plt = true) :
    process_function ctx sig_path kb fa = (kb, [], none) := by
  unfold process_function
  rcases h with h | h <;> simp [hget, h]

/-- Witness for C3's amended statement: scanning the PLT stub itself
does nothing. -/
theorem C3_eligibility_skip_witness :
    process_function ctxPltHit "p.sig" [pltAt1002] 0x1002 = ([pltAt1002], [], none) := by
  have h := C3_eligibility_skip ctxPltHit "p.sig" [pltAt1002] 0x1002 pltAt1002
    (by decide) (Or.inr rfl)
  simpa using h

/-- Counterexample to C3 as stated: a run in which a match hit at
offset 2 of the scanned function resolves to the PLT stub at `0x1002`,
which still has a default name, so the namer renames it — its name,
default-name flag and provenance all change. -/
theorem C3_counterexample :
    pltAt1002.is_plt = true ∧ pltAt1002.name = "plt_stub"
    ∧ pltAt1002.is_default_name = true ∧ pltAt1002.from_signature = none
    ∧ get_by_addr (run_signatures ctxPltHit [sigP] [funcAt1000, pltAt1002]).1 0x1002 =
        some pltRenamed := by
  decide

/-- Claim C8: on ARM-family targets, when the lookup at the matched
address fails but the lookup at the matched address plus one succeeds,
the namer behaves exactly as if the hit's offset had pointed at the
successor address directly; on non-ARM targets no retry happens — a
missed lookup drops the hit without mutating the knowledge base. -/
theorem C8_thumb_retry (kb : List Function) (sfa base : Nat)
    (ff : FlirtFunction) (f : Function)
    (hne : base + ff.offset ≠ base)
    (hmiss : get_by_addr kb (base + ff.offset) = none)
    (hhit : get_by_addr kb (base + ff.offset + 1) = some f) :
    on_func_matched true kb sfa base ff =
      on_func_matched true kb sfa base ⟨ff.offset + 1, ff.name⟩
    ∧ ∀ (kb2 : List Function) (sfa2 base2 : Nat) (ff2 : FlirtFunction),
        base2 + ff2.offset ≠ base2 →
        get_by_addr kb2 (base2 + ff2.offset) = none →
        on_func_matched false kb2 sfa2 base2 ff2 = kb2 := by
  constructor
  · have hne2 : base + (ff.offset + 1) ≠ base := by omega
    have hne3 : base + ff.offset + 1 ≠ base := by omega
    have hadd : base + (ff.offset + 1) = base + ff.offset + 1 := rfl
    simp only [on_func_matched, hadd, hmiss, hhit]
    rw [if_pos hne, if_pos hne3]
    simp only [if_true]
    rfl
  · intro kb2 sfa2 base2 ff2 hne2 hmiss2
    simp only [on_func_matched, hmiss2]
    rw [if_pos hne2]
    simp

/-- Witness for C8 at concrete inputs: a hit whose matched address
`0x1000` is unknown but whose Thumb successor `0x1001` exists, and a
non-ARM miss that drops the hit. -/
theorem C8_thumb_retry_witness :
    (on_func_matched true [funcThumb] 0x1001 0x0ff0 ⟨0x10, "thumb_fn"⟩ =
      on_func_matched true [funcThumb] 0x1001 0x0ff0 ⟨0x11, "thumb_fn"⟩)
    ∧ on_func_matched false [funcThumb] 0x1001 0x0ff0 ⟨0x10, "thumb_fn"⟩ =
        [funcThumb] := by
  have h := C8_thumb_retry [funcThumb] 0x1001 0x0ff0 ⟨0x10, "thumb_fn"⟩ funcThumb
    (by decide) (by decide) (by decide)
  exact ⟨h.1, h.2 [funcThumb] 0x1001 0x0ff0 ⟨0x10, "thumb_fn"⟩ (by decide) (by decide)⟩

/-- For addresses below `2 ^ 32`, the source's `& 0xfffffffe` mask is
exactly "clear the low bit". -/
theorem land_mask32_of_lt {a : Nat} (h : a < 2 ^ 32) :
    a &&& 0xfffffffe = specClearLowBit a := by
  apply Nat.eq_of_testBit_eq
  intro i
  rw [Nat.testBit_land]
  match i with
  | 0 =>
    have hm : (0xfffffffe : Nat).testBit 0 = false := by decide
    rw [hm, Bool.and_false, Nat.testBit_zero]
    simp [specClearLowBit, Nat.mul_mod_right]
  | i + 1 =>
    have hmask : (0xfffffffe : Nat).testBit (i + 1) = decide (i < 31) := by
      have h2 : (0xfffffffe : Nat) = 2 * (2 ^ 31 - 1) := by norm_num
      rw [h2, Nat.testBit_succ, Nat.mul_div_cancel_left _ (by norm_num : 0 < 2),
        Nat.testBit_two_pow_sub_one]
    simp only [specClearLowBit]
    rw [hmask, Nat.testBit_succ, Nat.testBit_succ,
      Nat.mul_div_cancel_left _ (by norm_num : 0 < 2)]
    by_cases hi : i < 31
    · simp [hi]
    · have hlt : a / 2 < 2 ^ i := by
        have h31 : (2 : Nat) ^ 31 ≤ 2 ^ i :=
          Nat.pow_le_pow_right (by norm_num) (by omega)
        have : a / 2 < 2 ^ 31 := by omega
        omega
      simp [hi, Nat.testBit_eq_false_of_lt hlt]

/-- Claim C7 (amended): on ARM-family targets the scan window's base and
end are the address and last-block end masked with `0xfffffffe` — for
values below `2 ^ 32` that clears exactly the low bit, but the mask also
truncates bits 32 and above (see the counterexample), so the claim's
"all other bits unchanged, including addresses at or above `2 ^ 32`"
does not hold. -/
theorem C7_arm_mask (ctx : MatchCtx) (sig_path : String) (kb : List Function)
    (f : Function) (m : Nat)
    (harm : ctx.is_arm = true)
    (hget : get_by_addr kb f.addr = some f)
    (hsp : f.is_simprocedure = false) (hplt : f.is_plt = false)
    (hdef : f.is_default_name = true)
    (hmax : maxList f.block_addrs_set = some m)
    (ha : f.addr < 2 ^ 32) (he : m + f.get_block_size m < 2 ^ 32) :
    (process_function ctx sig_path kb f.addr).2.1 =
      [Event.load (specClearLowBit f.addr)
        (((specClearLowBit (m + f.get_block_size m) : Nat) : Int)
          - ((specClearLowBit f.addr : Nat) : Int) + 0x100)] := by
  unfold process_function
  simp only [hget, hsp, hplt, hdef, hmax, harm]
  simp [land_mask32_of_lt ha, land_mask32_of_lt he]

/-- Witness for C7's amended statement: the Thumb function at `0x1001`
with last block `(0x1001, 6)` is scanned from `0x1000` to `0x1006`,
loading `0x106` bytes. -/
theorem C7_arm_mask_witness :
    (process_function ctxArm "p.sig" [funcThumb] 0x1001).2.1 =
      [Event.load 0x1000 0x106] := by
  have h := C7_arm_mask ctxArm "p.sig" [funcThumb] funcThumb 0x1001
    rfl (by decide) rfl rfl rfl (by decide) (by decide) (by decide)
  simpa [specClearLowBit] using h

/-- Counterexample to C7 as stated: at the even address `2 ^ 32`
clearing only the low bit would leave the address unchanged, but the
code's 32-bit mask maps it to 0 — the scan is driven from base 0. -/
theorem C7_counterexample :
    (process_function ctxArm "p.sig" [funcAtHigh] 0x100000000).2.1 =
      [Event.load 0 0x104]
    ∧ specClearLowBit 0x100000000 = 0x100000000
    ∧ (0 : Nat) ≠ 0x100000000 := by decide

/-! ### Counting lemmas for the string-heuristic selector -/

theorem getCount_bumpHits (h : List (String × Nat)) (lib x : String) :
    getCount (bumpHits h lib) x = getCount h x + if lib = x then 1 else 0 := by
  induction h with
  | nil =>
    simp only [bumpHits, getCount]
    split <;> simp
  | cons p rest ih =>
    obtain ⟨l, n⟩ := p
    simp only [bumpHits]
    by_cases hl : l = lib
    · subst hl
      by_cases hx : l = x
      · subst hx
        simp [getCount]
      · simp [getCount, hx]
    · rw [if_neg hl]
      by_cases hx : l = x
      · subst hx
        have hlx : ¬ lib = l := fun hh => hl hh.symm
        simp [getCount, hlx]
      · simp [getCount, hx, ih]

theorem getCount_foldl_bumpHits (libs : List String) (x : String) :
    ∀ h, getCount (libs.foldl bumpHits h) x = getCount h x + libs.count x := by
  induction libs with
  | nil => intro h; simp
  | cons lib rest ih =>
    intro h
    simp only [List.foldl_cons]
    rw [ih, getCount_bumpHits, List.count_cons]
    by_cases hx : lib = x
    · simp [hx]
      omega
    · simp [hx]

theorem getCount_region_fold (s : String) (libs : List String) (x : String) :
    ∀ (regions : List (List Nat)) (h : List (String × Nat)),
    getCount (regions.foldl (fun hits region =>
        if bytesContain (asciiEncode s) region then libs.foldl bumpHits hits
        else hits) h) x
      = getCount h x
        + (regions.countP (fun r => bytesContain (asciiEncode s) r)) * libs.count x := by
  intro regions
  induction regions with
  | nil => intro h; simp
  | cons r rest ih =>
    intro h
    simp only [List.foldl_cons, List.countP_cons]
    by_cases hr : bytesContain (asciiEncode s) r
    · rw [if_pos hr, ih, getCount_foldl_bumpHits]
      simp only [hr, if_pos]
      ring
    · rw [if_neg hr, ih]
      simp [hr]

theorem getCount_s2l_fold (regions : List (List Nat)) (x : String) :
    ∀ (s2l : List (String × List String)) (h : List (String × Nat)),
    getCount (s2l.foldl
        (fun hits p =>
          regions.foldl
            (fun hits region =>
              if bytesContain (asciiEncode p.1) region then p.2.foldl bumpHits hits
              else hits)
            hits) h) x
      = getCount h x + hitCountSpec s2l regions x := by
  intro s2l
  induction s2l with
  | nil => intro h; simp [hitCountSpec]
  | cons p rest ih =>
    intro h
    simp only [List.foldl_cons]
    rw [ih, getCount_region_fold]
    simp only [hitCountSpec, List.map_cons, List.sum_cons]
    ring

/-- The `defaultdict(int)` built by the hit-counting loops holds, for
every library, exactly the spec's per-`(token, buffer)` hit count. -/
theorem getCount_libraryHits (s2l : List (String × List String))
    (regions : List (List Nat)) (x : String) :
    getCount (libraryHits s2l regions) x = hitCountSpec s2l regions x := by
  have h := getCount_s2l_fold regions x s2l []
  simpa [libraryHits, getCount] using h

theorem bumpHits_pos {h : List (String × Nat)} (hpos : ∀ p ∈ h, 1 ≤ p.2)
    (lib : String) : ∀ p ∈ bumpHits h lib, 1 ≤ p.2 := by
  induction h with
  | nil =>
    intro p hp
    simp only [bumpHits, List.mem_singleton] at hp
    simp [hp]
  | cons q rest ih =>
    obtain ⟨l, n⟩ := q
    intro p hp
    simp only [bumpHits] at hp
    by_cases hl : l = lib
    · rw [if_pos hl] at hp
      rcases List.mem_cons.1 hp with hp | hp
      · subst hp; simp
      · exact hpos p (List.mem_cons_of_mem _ hp)
    · rw [if_neg hl] at hp
      rcases List.mem_cons.1 hp with hp | hp
      · subst hp; exact hpos _ (List.mem_cons_self _ _)
      · exact ih (fun q hq => hpos q (List.mem_cons_of_mem _ hq)) p hp

theorem foldl_bumpHits_pos (libs : List String) :
    ∀ h, (∀ p ∈ h, 1 ≤ p.2) → ∀ p ∈ libs.foldl bumpHits h, 1 ≤ p.2 := by
  induction libs with
  | nil => intro h hpos; exact hpos
  | cons lib rest ih =>
    intro h hpos
    simp only [List.foldl_cons]
    exact ih _ (bumpHits_pos hpos lib)

theorem region_fold_pos (s : String) (libs : List String)
    (regions : List (List Nat)) :
    ∀ h, (∀ p ∈ h, 1 ≤ p.2) →
    ∀ p ∈ regions.foldl (fun hits region =>
        if bytesContain (asciiEncode s) region then libs.foldl bumpHits hits
        else hits) h, 1 ≤ p.2 := by
  induction regions with
  | nil => intro h hpos; exact hpos
  | cons r rest ih =>
    intro h hpos
    simp only [List.foldl_cons]
    by_cases hr : bytesContain (asciiEncode s) r
    · rw [if_pos hr]
      exact ih _ (foldl_bumpHits_pos libs h hpos)
    · rw [if_neg hr]
      exact ih _ hpos

/-- Every entry of the hit dictionary has a strictly positive count. -/
theorem libraryHits_pos (s2l : List (String × List String))
    (regions : List (List Nat)) : ∀ p ∈ libraryHits s2l regions, 1 ≤ p.2 := by
  rw [libraryHits]
  generalize hinit : ([] : List (String × Nat)) = h0
  have hpos0 : ∀ p ∈ h0, 1 ≤ p.2 := by rw [← hinit]; simp
  clear hinit
  induction s2l generalizing h0 with
  | nil => exact hpos0
  | cons p rest ih =>
    simp only [List.foldl_cons]
    exact ih _ (region_fold_pos p.1 p.2 regions h0 hpos0)

theorem mem_keys_iff_getCount {h : List (String × Nat)}
    (hpos : ∀ p ∈ h, 1 ≤ p.2) (x : String) :
    (∃ n, (x, n) ∈ h) ↔ getCount h x ≠ 0 := by
  induction h with
  | nil => simp [getCount]
  | cons p rest ih =>
    obtain ⟨l, n⟩ := p
    by_cases hl : l = x
    · subst hl
      constructor
      · intro _
        have h1 : 1 ≤ n := hpos _ (List.mem_cons_self _ _)
        simp [getCount]
        omega
      · intro _
        exact ⟨n, List.mem_cons_self _ _⟩
    · simp only [getCount, if_neg hl]
      rw [← ih (fun q hq => hpos q (List.mem_cons_of_mem _ hq))]
      constructor
      · rintro ⟨n', hn'⟩
        rcases List.mem_cons.1 hn' with hn' | hn'
        · exact absurd (congrArg Prod.fst hn').symm hl
        · exact ⟨n', hn'⟩
      · rintro ⟨n', hn'⟩
        exact ⟨n', List.mem_cons_of_mem _ hn'⟩

theorem sortByCountDesc_perm (l : List (String × Nat)) :
    (sortByCountDesc l).Perm l :=
  List.perm_insertionSort _ l

theorem sortByCountDesc_sorted (l : List (String × Nat)) :
    (sortByCountDesc l).Pairwise (fun a b => a.2 ≥ b.2) := by
  haveI : IsTotal (String × Nat) (fun a b => a.2 ≥ b.2) :=
    ⟨fun a b => le_total b.2 a.2⟩
  haveI : IsTrans (String × Nat) (fun a b => a.2 ≥ b.2) :=
    ⟨fun _ _ _ hab hbc => le_trans hbc hab⟩
  exact List.sorted_insertionSort _ l

/-- Membership in the selector's output, characterized over the ranked
hit list. -/
theorem mem_find_hits_iff (s2l : List (String × List String))
    (l2s : String → List FlirtSignature) (arch_name : String)
    (regions : List (List Nat)) (sig : FlirtSignature) :
    sig ∈ find_hits_by_strings s2l l2s arch_name regions ↔
      ∃ p ∈ sortByCountDesc (libraryHits s2l regions),
        sig ∈ l2s p.1 ∧ sig.arch = pyLower arch_name := by
  simp [find_hits_by_strings, List.mem_filter, beq_iff_eq]

/-- Claim C1: the heuristic selector credits one hit per
`(token, buffer)` containment pair, ranks libraries by hit count
descending, and yields exactly the signatures of hit libraries whose
architecture matches the (lower-cased) target, none from zero-hit
libraries; in the concrete zlib scenario the output is exactly zlib's
two x86 signatures in catalog order. -/
theorem C1_heuristic_selection (s2l : List (String × List String))
    (l2s : String → List FlirtSignature) (arch_name : String)
    (regions : List (List Nat)) :
    (∀ lib, getCount (libraryHits s2l regions) lib = hitCountSpec s2l regions lib)
    ∧ (sortByCountDesc (libraryHits s2l regions)).Pairwise (fun a b => a.2 ≥ b.2)
    ∧ (∀ sig, sig ∈ find_hits_by_strings s2l l2s arch_name regions ↔
        ∃ lib, hitCountSpec s2l regions lib ≠ 0 ∧ sig ∈ l2s lib ∧
          sig.arch = pyLower arch_name)
    ∧ find_hits_by_strings s2lExample l2sExample "x86" [bufExample]
        = [zlibSigX1, zlibSigX2] := by
  refine ⟨getCount_libraryHits s2l regions, sortByCountDesc_sorted _, ?_, by decide⟩
  intro sig
  rw [mem_find_hits_iff]
  constructor
  · rintro ⟨p, hp, hsig, harch⟩
    refine ⟨p.1, ?_, hsig, harch⟩
    rw [← getCount_libraryHits]
    have hmem : p ∈ libraryHits s2l regions := (sortByCountDesc_perm _).mem_iff.1 hp
    exact (mem_keys_iff_getCount (libraryHits_pos s2l regions) p.1).1
      ⟨p.2, by simpa using hmem⟩
  · rintro ⟨lib, hcnt, hsig, harch⟩
    rw [← getCount_libraryHits] at hcnt
    obtain ⟨n, hn⟩ := (mem_keys_iff_getCount (libraryHits_pos s2l regions) lib).2 hcnt
    exact ⟨(lib, n), (sortByCountDesc_perm _).mem_iff.2 hn, hsig, harch⟩

/-- Claim C5 (amended): a signature of a ranked library is included in
the output iff its stored architecture string is byte-for-byte equal to
the lower-cased target architecture — the stored side is NOT
case-normalized, so a signature whose stored architecture differs from
the target only in letter case is dropped (see the counterexample). -/
theorem C5_arch_filter_exact (s2l : List (String × List String))
    (l2s : String → List FlirtSignature) (arch_name : String)
    (regions : List (List Nat)) (sig : FlirtSignature) :
    sig ∈ find_hits_by_strings s2l l2s arch_name regions ↔
      ∃ p ∈ sortByCountDesc (libraryHits s2l regions),
        sig ∈ l2s p.1 ∧ sig.arch = pyLower arch_name := by
  simp [find_hits_by_strings, List.mem_filter, beq_iff_eq]

/-- Counterexample to C5 as stated: the catalog signature with stored
architecture `"X86"` matches the target `"x86"` case-insensitively and
its library is a hit, yet the selector's output is empty. -/
theorem C5_counterexample :
    archMatchesCaseInsensitive caseSig.arch "x86" = true
    ∧ hitCountSpec [("inflate 1.2.11", ["zlib"])] [bufExample] "zlib" ≠ 0
    ∧ caseSig ∈ l2sCase "zlib"
    ∧ find_hits_by_strings [("inflate 1.2.11", ["zlib"])] l2sCase "x86" [bufExample]
        = [] := by
  decide

end Flirt
